import Mathlib

/-!
Shallow embedding of `src/utils/callback.py` (tensorpack callback core):
the `Callback` hook interface, the `PeriodicCallback` epoch-counter gate,
and the `Callbacks` aggregator (construction reordering, dispatch loops,
summary-writer flush, and the slow-hook timing diagnostic).

Hooks are modelled by an identity plus an exact class tag (Python's
`type(cb) == SummaryWriter` compares exact classes).  Dispatch is modelled
as an event trace: each loop iteration emits the event of invoking that
hook's lifecycle method; a hook's behaviour is a `Except PyError Unit`
telling whether that method returns normally or raises.  Wall-clock times
(Python floats from `time.time()`) are modelled as rationals supplied as
inputs, since real time is non-deterministic.
-/

namespace Tensorpack

/-- Exact Python class of a hook object, as compared by `type(cb) == SummaryWriter`
in `Callbacks.__init__`. -/
inductive HookType where
  | summaryWriter
  | periodicSaver
  | other (className : String)
deriving DecidableEq, Repr

/-- `type(cb).__name__`, used in the slow-callback diagnostic message. -/
def HookType.className : HookType → String
  | .summaryWriter => "SummaryWriter"
  | .periodicSaver => "PeriodicSaver"
  | .other s => s

/-- A hook object: an identity (to track invocations) and its exact class. -/
structure Hook where
  id : Nat
  type : HookType
deriving DecidableEq, Repr

/-- The test `type(cb) == SummaryWriter` from `Callbacks.__init__`. -/
def isSummaryWriter (cb : Hook) : Bool := cb.type == HookType.summaryWriter

/-- Python exceptions relevant to this module: the `RuntimeError` raised by
`Callbacks.__init__`, the `AttributeError` raised when reading a never-assigned
attribute (e.g. `self.writer` before `before_train`), and opaque errors raised
from inside a hook's lifecycle method. -/
inductive PyError where
  | runtimeError (msg : String)
  | attributeError (attr : String)
  | hookRaised (code : Nat)
deriving DecidableEq, Repr

deriving instance DecidableEq for Except

/-- State of a `Callbacks` aggregator: the reordered hook list set by
`__init__`, and `self.writer`, which is only assigned in `before_train`
(`none` models the attribute not existing yet). -/
structure CallbacksState where
  callbacks : List Hook
  writer : Option Unit
deriving DecidableEq, Repr

/-- The scan-and-move of `Callbacks.__init__` (lines 92-97): find the first
hook whose exact type is `SummaryWriter`; `callbacks.insert(0, callbacks.pop(idx))`
is returning that hook paired with the rest of the list in original order.
`none` models the `for`-`else` fallthrough (no such hook). -/
def moveSummaryWriterFront : List Hook → Option (Hook × List Hook)
  | [] => none
  | cb :: rest =>
    if isSummaryWriter cb then some (cb, rest)
    else (moveSummaryWriterFront rest).map (fun p => (p.1, cb :: p.2))

/-- `Callbacks.__init__` (lines 91-100): move the first `SummaryWriter` to the
front, or raise `RuntimeError("callbacks must contain a SummaryWriter!")`.
`self.writer` does not exist yet after construction. -/
def callbacksInit (cbs : List Hook) : Except PyError CallbacksState :=
  match moveSummaryWriterFront cbs with
  | some (sw, others) => .ok ⟨sw :: others, none⟩
  | none => .error (.runtimeError "callbacks must contain a SummaryWriter!")

/-- Observable events of a dispatch: invoking a hook's lifecycle method
(with the arguments it received), or flushing the retained summary writer. -/
inductive Event where
  | beforeTrainCall (id : Nat)
  | stepCall (id : Nat) (inputs outputs cost : Nat)
  | epochCall (id : Nat)
  | flush
deriving DecidableEq, Repr

/-- A plain Python `for cb in self.callbacks:` loop invoking one lifecycle
method per hook.  `beh cb` says whether `cb`'s method returns or raises;
`ev cb` is the event of invoking it.  There is no `try`/`except`: a raising
hook ends the loop and the exception propagates. -/
def runHooks (beh : Hook → Except PyError Unit) (ev : Hook → Event) :
    List Hook → List Event × Except PyError Unit
  | [] => ([], .ok ())
  | cb :: rest =>
    match beh cb with
    | .error e => ([ev cb], .error e)
    | .ok _ =>
      let r := runHooks beh ev rest
      (ev cb :: r.1, r.2)

/-- `Callbacks.before_train` (lines 102-105): invoke every hook's
`before_train` in order, then retrieve the summary writer from the
collection and assign `self.writer`. -/
def beforeTrainRun (st : CallbacksState) (beh : Hook → Except PyError Unit) :
    CallbacksState × List Event × Except PyError Unit :=
  let r := runHooks beh (fun cb => .beforeTrainCall cb.id) st.callbacks
  match r.2 with
  | .error e => (st, r.1, .error e)
  | .ok _ => ({ st with writer := some () }, r.1, .ok ())

/-- `Callbacks.trigger_step` (lines 107-109): invoke every hook's
`trigger_step(inputs, outputs, cost)` in order, passing the arguments through. -/
def triggerStepRun (st : CallbacksState) (beh : Hook → Except PyError Unit)
    (inputs outputs cost : Nat) : List Event × Except PyError Unit :=
  runHooks beh (fun cb => .stepCall cb.id inputs outputs cost) st.callbacks

/-- `Callbacks.trigger_epoch`, dispatch part (lines 111-118): invoke every
hook's `trigger_epoch` in order, then `self.writer.flush()`.  Reading
`self.writer` when `before_train` never assigned it raises `AttributeError`. -/
def triggerEpochRun (st : CallbacksState) (beh : Hook → Except PyError Unit) :
    List Event × Except PyError Unit :=
  let r := runHooks beh (fun cb => .epochCall cb.id) st.callbacks
  match r.2 with
  | .error e => (r.1, .error e)
  | .ok _ =>
    match st.writer with
    | none => (r.1, .error (.attributeError "writer"))
    | some _ => (r.1 ++ [.flush], .ok ())

/-- State of a `PeriodicCallback`: the configured period and `self.epoch_num`. -/
structure PeriodicState where
  period : Nat
  epoch_num : Nat
deriving DecidableEq, Repr

/-- `PeriodicCallback.__init__(period)` (lines 41-43): counter starts at 0. -/
def periodicInit (p : Nat) : PeriodicState := ⟨p, 0⟩

/-- `PeriodicCallback.trigger_epoch` (lines 45-48): increment `epoch_num`,
and report whether `self._trigger()` fired (`epoch_num % period == 0`). -/
def periodicTriggerEpoch (s : PeriodicState) : PeriodicState × Bool :=
  let n := s.epoch_num + 1
  (⟨s.period, n⟩, n % s.period == 0)

/-- Iterate `periodicTriggerEpoch` for `m` calls, recording the fire flag of
each call in order. -/
def runEpochs (s : PeriodicState) : Nat → PeriodicState × List Bool
  | 0 => (s, [])
  | m + 1 =>
    let step := periodicTriggerEpoch s
    let rest := runEpochs step.1 m
    (rest.1, step.2 :: rest.2)

/-- The `msgs` loop of `Callbacks.trigger_epoch` (lines 124-128): for each
hook (paired with its measured time), if `t / tot > 0.3 and t > 1`, append
the pair rendered by `"{}:{}".format(type(...).__name__, t)`, modelled as
the (class name, time) pair. -/
def heavyHookMsgs (cbs : List Hook) (times : List ℚ) (tot : ℚ) :
    List (String × ℚ) :=
  (cbs.zip times).foldl
    (fun msgs p =>
      if 3/10 < p.2 / tot ∧ 1 < p.2 then msgs ++ [(p.1.type.className, p.2)]
      else msgs)
    []

/-- The diagnostic part of `Callbacks.trigger_epoch` (lines 119-129): given
the per-hook times and the total elapsed time `tot`, return `none` when no
log line is emitted (`tot < 3`), else the single combined `logger.info` line,
modelled as the total together with the list of offender messages. -/
def epochTimeDiagnostic (cbs : List Hook) (times : List ℚ) (tot : ℚ) :
    Option (ℚ × List (String × ℚ)) :=
  if tot < 3 then none
  else some (tot, heavyHookMsgs cbs times tot)

/-! ### Helper lemmas about the construction scan -/

lemma moveSummaryWriterFront_split (pre : List Hook) (sw : Hook) (post : List Hook)
    (hpre : ∀ c ∈ pre, isSummaryWriter c = false) (hsw : isSummaryWriter sw = true) :
    moveSummaryWriterFront (pre ++ sw :: post) = some (sw, pre ++ post) := by
  induction pre with
  | nil => simp [moveSummaryWriterFront, hsw]
  | cons a l ih =>
    have ha := hpre a (by simp)
    have ih' := ih (fun c hc => hpre c (by simp [hc]))
    simp [moveSummaryWriterFront, ha, ih']

lemma moveSummaryWriterFront_eq_none (l : List Hook)
    (h : ∀ c ∈ l, isSummaryWriter c = false) :
    moveSummaryWriterFront l = none := by
  induction l with
  | nil => rfl
  | cons a t ih =>
    have ih' := ih (fun c hc => h c (by simp [hc]))
    simp [moveSummaryWriterFront, h a (by simp), ih']

lemma exists_first_summary_writer (l : List Hook)
    (h : 0 < l.countP isSummaryWriter) :
    ∃ pre sw post, l = pre ++ sw :: post ∧ isSummaryWriter sw = true ∧
      ∀ c ∈ pre, isSummaryWriter c = false := by
  induction l with
  | nil => simp at h
  | cons a t ih =>
    by_cases ha : isSummaryWriter a = true
    · exact ⟨[], a, t, by simp, ha, by simp⟩
    · have ht : 0 < t.countP isSummaryWriter := by
        rw [List.countP_cons] at h
        simpa [ha] using h
      obtain ⟨pre, sw, post, heq, hsw, hpre⟩ := ih ht
      refine ⟨a :: pre, sw, post, by simp [heq], hsw, ?_⟩
      intro c hc
      rcases List.mem_cons.mp hc with h1 | h1
      · subst h1; simpa using ha
      · exact hpre c h1

/-! ### Claims about `Callbacks.__init__` -/

/-- C1: when the hook list contains exactly one `SummaryWriter` among its
hooks, construction succeeds, that hook ends up at index 0, and the
remaining hooks keep their relative order (the resulting list is the single
summary writer followed by the non-summary-writer hooks in original order). -/
theorem single_summary_writer_moved_to_front (cbs : List Hook)
    (h : cbs.countP isSummaryWriter = 1) :
    callbacksInit cbs =
      .ok ⟨cbs.filter isSummaryWriter ++ cbs.filter (fun c => !isSummaryWriter c),
           none⟩ := by
  obtain ⟨pre, sw, post, heq, hsw, hpre⟩ :=
    exists_first_summary_writer cbs (by omega)
  subst heq
  have hpre0 : pre.countP isSummaryWriter = 0 :=
    List.countP_eq_zero.mpr (fun c hc => by simp [hpre c hc])
  have hpost : ∀ c ∈ post, isSummaryWriter c = false := by
    rw [List.countP_append, List.countP_cons] at h
    simp [hpre0, hsw] at h
    exact h
  have hfil1 : (pre ++ sw :: post).filter isSummaryWriter = [sw] := by
    simp only [List.filter_append, List.filter_cons, hsw]
    rw [List.filter_eq_nil_iff.mpr (fun c hc => by simp [hpre c hc]),
        List.filter_eq_nil_iff.mpr (fun c hc => by simp [hpost c hc])]
    simp
  have hfil2 : (pre ++ sw :: post).filter (fun c => !isSummaryWriter c)
      = pre ++ post := by
    simp only [List.filter_append, List.filter_cons, hsw]
    rw [List.filter_eq_self.mpr (fun c hc => by simp [hpre c hc]),
        List.filter_eq_self.mpr (fun c hc => by simp [hpost c hc])]
    simp
  rw [hfil1, hfil2]
  simp [callbacksInit, moveSummaryWriterFront_split pre sw post hpre hsw]

/-- C5: constructing `Callbacks` from a list with no `SummaryWriter` always
raises the configuration `RuntimeError` and never succeeds. -/
theorem no_summary_writer_raises (cbs : List Hook)
    (h : cbs.countP isSummaryWriter = 0) :
    callbacksInit cbs =
      .error (.runtimeError "callbacks must contain a SummaryWriter!") := by
  have hall : ∀ c ∈ cbs, isSummaryWriter c = false := by
    intro c hc
    simpa using List.countP_eq_zero.mp h c hc
  simp [callbacksInit, moveSummaryWriterFront_eq_none cbs hall]

/-- C9: with two or more `SummaryWriter` hooks, construction still succeeds:
only the first one (the one with no `SummaryWriter` before it) moves to
index 0, and all other hooks, later summary writers included, keep their
relative order. -/
theorem multiple_summary_writers_first_moved (cbs : List Hook)
    (h : 2 ≤ cbs.countP isSummaryWriter) :
    ∃ pre sw post, cbs = pre ++ sw :: post ∧ isSummaryWriter sw = true ∧
      (∀ c ∈ pre, isSummaryWriter c = false) ∧
      callbacksInit cbs = .ok ⟨sw :: (pre ++ post), none⟩ := by
  obtain ⟨pre, sw, post, heq, hsw, hpre⟩ :=
    exists_first_summary_writer cbs (by omega)
  refine ⟨pre, sw, post, heq, hsw, hpre, ?_⟩
  subst heq
  simp [callbacksInit, moveSummaryWriterFront_split pre sw post hpre hsw]

/-- Witness for C1: three hooks, the single `SummaryWriter` in the middle. -/
theorem single_summary_writer_moved_to_front_witness :
    ([Hook.mk 0 .periodicSaver, Hook.mk 1 .summaryWriter,
        Hook.mk 2 .periodicSaver].countP isSummaryWriter = 1)
    ∧ callbacksInit [Hook.mk 0 .periodicSaver, Hook.mk 1 .summaryWriter,
        Hook.mk 2 .periodicSaver] =
      .ok ⟨[Hook.mk 0 .periodicSaver, Hook.mk 1 .summaryWriter,
              Hook.mk 2 .periodicSaver].filter isSummaryWriter ++
            [Hook.mk 0 .periodicSaver, Hook.mk 1 .summaryWriter,
              Hook.mk 2 .periodicSaver].filter (fun c => !isSummaryWriter c),
           none⟩ :=
  ⟨by decide, single_summary_writer_moved_to_front _ (by decide)⟩

/-- Witness for C5: a one-hook list with no `SummaryWriter`. -/
theorem no_summary_writer_raises_witness :
    ([Hook.mk 0 .periodicSaver].countP isSummaryWriter = 0)
    ∧ callbacksInit [Hook.mk 0 .periodicSaver] =
      .error (.runtimeError "callbacks must contain a SummaryWriter!") :=
  ⟨by decide, no_summary_writer_raises _ (by decide)⟩

/-- Witness for C9: two `SummaryWriter` hooks at indices 1 and 2. -/
theorem multiple_summary_writers_first_moved_witness :
    (2 ≤ [Hook.mk 0 .periodicSaver, Hook.mk 1 .summaryWriter,
            Hook.mk 2 .summaryWriter].countP isSummaryWriter)
    ∧ ∃ pre sw post,
        [Hook.mk 0 .periodicSaver, Hook.mk 1 .summaryWriter,
          Hook.mk 2 .summaryWriter] = pre ++ sw :: post
        ∧ isSummaryWriter sw = true
        ∧ (∀ c ∈ pre, isSummaryWriter c = false)
        ∧ callbacksInit [Hook.mk 0 .periodicSaver, Hook.mk 1 .summaryWriter,
            Hook.mk 2 .summaryWriter] = .ok ⟨sw :: (pre ++ post), none⟩ :=
  ⟨by decide, multiple_summary_writers_first_moved _ (by decide)⟩

/-! ### Helper lemmas about the dispatch loop -/

lemma runHooks_all_ok (beh : Hook → Except PyError Unit) (ev : Hook → Event)
    (l : List Hook) (h : ∀ cb ∈ l, beh cb = .ok ()) :
    runHooks beh ev l = (l.map ev, .ok ()) := by
  induction l with
  | nil => rfl
  | cons a t ih =>
    have ha := h a (by simp)
    have ih' := ih (fun cb hc => h cb (by simp [hc]))
    simp [runHooks, ha, ih']

lemma runHooks_raises (beh : Hook → Except PyError Unit) (ev : Hook → Event)
    (pre : List Hook) (cb : Hook) (post : List Hook) (e : PyError)
    (hpre : ∀ c ∈ pre, beh c = .ok ()) (hcb : beh cb = .error e) :
    runHooks beh ev (pre ++ cb :: post) = (pre.map ev ++ [ev cb], .error e) := by
  induction pre with
  | nil => simp [runHooks, hcb]
  | cons a t ih =>
    have ha := hpre a (by simp)
    have ih' := ih (fun c hc => hpre c (by simp [hc]))
    simp [runHooks, ha, ih']

lemma callbacksInit_writer_none (cbs : List Hook) (st : CallbacksState)
    (h : callbacksInit cbs = .ok st) : st.writer = none := by
  unfold callbacksInit at h
  cases hm : moveSummaryWriterFront cbs with
  | none => rw [hm] at h; cases h
  | some p =>
    rw [hm] at h
    cases h
    rfl

/-! ### Claims about dispatch -/

/-- C6: in every dispatch (`before_train`, `trigger_step`, `trigger_epoch`),
a hook whose lifecycle method raises ends that dispatch: hooks listed after
it are not invoked, and the error reaches the caller unchanged (there is no
`try`/`except` around any loop). -/
theorem hook_error_aborts_dispatch (st : CallbacksState)
    (beh : Hook → Except PyError Unit) (pre : List Hook) (cb : Hook)
    (post : List Hook) (e : PyError) (inputs outputs cost : Nat)
    (hsplit : st.callbacks = pre ++ cb :: post)
    (hpre : ∀ c ∈ pre, beh c = .ok ()) (hcb : beh cb = .error e) :
    beforeTrainRun st beh =
      (st, pre.map (fun c => Event.beforeTrainCall c.id)
            ++ [Event.beforeTrainCall cb.id], .error e)
    ∧ triggerStepRun st beh inputs outputs cost =
      (pre.map (fun c => Event.stepCall c.id inputs outputs cost)
        ++ [Event.stepCall cb.id inputs outputs cost], .error e)
    ∧ triggerEpochRun st beh =
      (pre.map (fun c => Event.epochCall c.id)
        ++ [Event.epochCall cb.id], .error e) := by
  refine ⟨?_, ?_, ?_⟩ <;>
    simp [beforeTrainRun, triggerStepRun, triggerEpochRun, hsplit,
      runHooks_raises beh _ pre cb post e hpre hcb]

/-- Witness for C6: the middle of three hooks raises; the third is never
invoked and the error surfaces from all three dispatch operations. -/
theorem hook_error_aborts_dispatch_witness :
    ((CallbacksState.mk [Hook.mk 0 .summaryWriter, Hook.mk 1 .periodicSaver,
          Hook.mk 2 .periodicSaver] (some ())).callbacks
        = [Hook.mk 0 .summaryWriter] ++ Hook.mk 1 .periodicSaver
            :: [Hook.mk 2 .periodicSaver])
    ∧ (∀ c ∈ [Hook.mk 0 .summaryWriter],
        (fun cb => if cb.id == 1 then Except.error (PyError.hookRaised 7)
          else Except.ok ()) c = .ok ())
    ∧ ((fun cb => if cb.id == 1 then Except.error (PyError.hookRaised 7)
          else Except.ok ()) (Hook.mk 1 .periodicSaver)
        = .error (PyError.hookRaised 7))
    ∧ (beforeTrainRun
        (CallbacksState.mk [Hook.mk 0 .summaryWriter, Hook.mk 1 .periodicSaver,
          Hook.mk 2 .periodicSaver] (some ()))
        (fun cb => if cb.id == 1 then Except.error (PyError.hookRaised 7)
          else Except.ok ()) =
        (CallbacksState.mk [Hook.mk 0 .summaryWriter, Hook.mk 1 .periodicSaver,
          Hook.mk 2 .periodicSaver] (some ()),
         [Hook.mk 0 .summaryWriter].map (fun c => Event.beforeTrainCall c.id)
            ++ [Event.beforeTrainCall (Hook.mk 1 .periodicSaver).id],
         .error (PyError.hookRaised 7))
      ∧ triggerStepRun
        (CallbacksState.mk [Hook.mk 0 .summaryWriter, Hook.mk 1 .periodicSaver,
          Hook.mk 2 .periodicSaver] (some ()))
        (fun cb => if cb.id == 1 then Except.error (PyError.hookRaised 7)
          else Except.ok ()) 4 5 6 =
        ([Hook.mk 0 .summaryWriter].map (fun c => Event.stepCall c.id 4 5 6)
          ++ [Event.stepCall (Hook.mk 1 .periodicSaver).id 4 5 6],
         .error (PyError.hookRaised 7))
      ∧ triggerEpochRun
        (CallbacksState.mk [Hook.mk 0 .summaryWriter, Hook.mk 1 .periodicSaver,
          Hook.mk 2 .periodicSaver] (some ()))
        (fun cb => if cb.id == 1 then Except.error (PyError.hookRaised 7)
          else Except.ok ()) =
        ([Hook.mk 0 .summaryWriter].map (fun c => Event.epochCall c.id)
          ++ [Event.epochCall (Hook.mk 1 .periodicSaver).id],
         .error (PyError.hookRaised 7))) :=
  ⟨by decide, by decide, by decide,
   hook_error_aborts_dispatch
     (CallbacksState.mk [Hook.mk 0 .summaryWriter, Hook.mk 1 .periodicSaver,
       Hook.mk 2 .periodicSaver] (some ()))
     (fun cb => if cb.id == 1 then Except.error (PyError.hookRaised 7)
       else Except.ok ())
     [Hook.mk 0 .summaryWriter] (Hook.mk 1 .periodicSaver)
     [Hook.mk 2 .periodicSaver] (PyError.hookRaised 7) 4 5 6
     (by decide) (by decide) (by decide)⟩

/-- C7: `trigger_step` invokes every registered hook's `trigger_step` exactly
once, in list order, passing the same `inputs`, `outputs`, `cost` through
unmodified. -/
theorem trigger_step_dispatches_all_in_order (st : CallbacksState)
    (beh : Hook → Except PyError Unit) (inputs outputs cost : Nat)
    (h : ∀ cb ∈ st.callbacks, beh cb = .ok ()) :
    triggerStepRun st beh inputs outputs cost =
      (st.callbacks.map (fun c => Event.stepCall c.id inputs outputs cost),
       .ok ()) := by
  simp [triggerStepRun, runHooks_all_ok beh _ st.callbacks h]

/-- Witness for C7 on a concrete two-hook aggregator. -/
theorem trigger_step_dispatches_all_in_order_witness :
    (∀ cb ∈ (CallbacksState.mk
        [Hook.mk 0 .summaryWriter, Hook.mk 1 .periodicSaver] (some ())).callbacks,
      (fun _ => (Except.ok () : Except PyError Unit)) cb = .ok ())
    ∧ triggerStepRun
        (CallbacksState.mk [Hook.mk 0 .summaryWriter, Hook.mk 1 .periodicSaver]
          (some ()))
        (fun _ => Except.ok ()) 10 20 30 =
      ((CallbacksState.mk [Hook.mk 0 .summaryWriter, Hook.mk 1 .periodicSaver]
          (some ())).callbacks.map (fun c => Event.stepCall c.id 10 20 30),
       .ok ()) :=
  ⟨by decide, trigger_step_dispatches_all_in_order _ _ 10 20 30 (by decide)⟩

/-- C8: when every hook's `trigger_epoch` returns normally and the writer was
retained by `before_train`, `trigger_epoch` flushes the writer exactly once,
and the flush event comes after all the hook invocations. -/
theorem epoch_flush_once_after_all_hooks (st : CallbacksState)
    (beh : Hook → Except PyError Unit)
    (hok : ∀ cb ∈ st.callbacks, beh cb = .ok ())
    (hw : st.writer = some ()) :
    triggerEpochRun st beh =
      (st.callbacks.map (fun c => Event.epochCall c.id) ++ [Event.flush],
       .ok ())
    ∧ (triggerEpochRun st beh).1.count Event.flush = 1 := by
  have h1 : triggerEpochRun st beh =
      (st.callbacks.map (fun c => Event.epochCall c.id) ++ [Event.flush],
       .ok ()) := by
    simp [triggerEpochRun, runHooks_all_ok beh _ st.callbacks hok, hw]
  refine ⟨h1, ?_⟩
  rw [h1]
  simp only [List.count_append]
  rw [List.count_eq_zero.mpr (by simp)]
  simp

/-- Witness for C8 on a concrete two-hook aggregator. -/
theorem epoch_flush_once_after_all_hooks_witness :
    (∀ cb ∈ (CallbacksState.mk
        [Hook.mk 0 .summaryWriter, Hook.mk 1 .periodicSaver] (some ())).callbacks,
      (fun _ => (Except.ok () : Except PyError Unit)) cb = .ok ())
    ∧ (CallbacksState.mk [Hook.mk 0 .summaryWriter, Hook.mk 1 .periodicSaver]
        (some ())).writer = some ()
    ∧ (triggerEpochRun
        (CallbacksState.mk [Hook.mk 0 .summaryWriter, Hook.mk 1 .periodicSaver]
          (some ())) (fun _ => Except.ok ()) =
        ((CallbacksState.mk [Hook.mk 0 .summaryWriter, Hook.mk 1 .periodicSaver]
            (some ())).callbacks.map (fun c => Event.epochCall c.id)
          ++ [Event.flush], .ok ())
      ∧ (triggerEpochRun
          (CallbacksState.mk [Hook.mk 0 .summaryWriter, Hook.mk 1 .periodicSaver]
            (some ())) (fun _ => Except.ok ())).1.count Event.flush = 1) :=
  ⟨by decide, by decide,
   epoch_flush_once_after_all_hooks _ _ (by decide) (by decide)⟩

/-- C10: on a freshly constructed aggregator (on which `before_train` was
never called), `trigger_epoch` still invokes every hook's `trigger_epoch` in
order, and only afterwards raises `AttributeError` for the never-assigned
`self.writer`; nothing rejects the out-of-order call up front, and no flush
happens. -/
theorem epoch_without_before_train (cbs : List Hook) (st : CallbacksState)
    (beh : Hook → Except PyError Unit)
    (hinit : callbacksInit cbs = .ok st)
    (hok : ∀ cb ∈ st.callbacks, beh cb = .ok ()) :
    triggerEpochRun st beh =
      (st.callbacks.map (fun c => Event.epochCall c.id),
       .error (.attributeError "writer"))
    ∧ Event.flush ∉ (triggerEpochRun st beh).1 := by
  have hw := callbacksInit_writer_none cbs st hinit
  have h1 : triggerEpochRun st beh =
      (st.callbacks.map (fun c => Event.epochCall c.id),
       .error (.attributeError "writer")) := by
    simp [triggerEpochRun, runHooks_all_ok beh _ st.callbacks hok, hw]
  exact ⟨h1, by rw [h1]; simp⟩

/-- Witness for C10: a two-hook list straight out of `callbacksInit`. -/
theorem epoch_without_before_train_witness :
    (callbacksInit [Hook.mk 0 .summaryWriter, Hook.mk 1 .periodicSaver] =
      .ok (CallbacksState.mk
        [Hook.mk 0 .summaryWriter, Hook.mk 1 .periodicSaver] none))
    ∧ (∀ cb ∈ (CallbacksState.mk
        [Hook.mk 0 .summaryWriter, Hook.mk 1 .periodicSaver] none).callbacks,
      (fun _ => (Except.ok () : Except PyError Unit)) cb = .ok ())
    ∧ (triggerEpochRun
        (CallbacksState.mk [Hook.mk 0 .summaryWriter, Hook.mk 1 .periodicSaver]
          none) (fun _ => Except.ok ()) =
        ((CallbacksState.mk [Hook.mk 0 .summaryWriter, Hook.mk 1 .periodicSaver]
            none).callbacks.map (fun c => Event.epochCall c.id),
         .error (.attributeError "writer"))
      ∧ Event.flush ∉ (triggerEpochRun
          (CallbacksState.mk [Hook.mk 0 .summaryWriter, Hook.mk 1 .periodicSaver]
            none) (fun _ => Except.ok ())).1) :=
  ⟨by decide, by decide,
   epoch_without_before_train
     [Hook.mk 0 .summaryWriter, Hook.mk 1 .periodicSaver]
     (CallbacksState.mk [Hook.mk 0 .summaryWriter, Hook.mk 1 .periodicSaver]
       none)
     (fun _ => Except.ok ()) (by decide) (by decide)⟩

/-! ### Helper lemmas about the periodic gate -/

lemma runEpochs_closed_form (P m : Nat) : ∀ n,
    runEpochs ⟨P, n⟩ m =
      (⟨P, n + m⟩, (List.range m).map (fun k => (n + k + 1) % P == 0)) := by
  induction m with
  | zero => intro n; simp [runEpochs]
  | succ m ih =>
    intro n
    simp only [runEpochs, periodicTriggerEpoch, ih (n + 1),
      List.range_succ_eq_map, List.map_cons, List.map_map]
    refine Prod.ext (by simp; omega) ?_
    simp only [Function.comp]
    refine congrArg₂ _ rfl (List.map_congr_left ?_)
    intro k _
    have harg : n + 1 + k + 1 = n + (k + 1) + 1 := by omega
    rw [harg]
    rfl

lemma count_true_fires (P m : Nat) :
    ((List.range m).map (fun k => (k + 1) % P == 0)).count true = m / P := by
  induction m with
  | zero => simp
  | succ m ih =>
    rw [List.range_succ, List.map_append, List.count_append, ih, Nat.succ_div]
    by_cases h : (m + 1) % P = 0
    · have hdvd : P ∣ (m + 1) := Nat.dvd_iff_mod_eq_zero.mpr h
      simp [h, hdvd]
    · have hdvd : ¬ P ∣ (m + 1) :=
        fun hd => h (Nat.dvd_iff_mod_eq_zero.mp hd)
      simp [h, hdvd]

/-! ### Claim about `PeriodicCallback` -/

/-- C2: starting from a fresh `PeriodicCallback` with positive period `P`,
`M` calls to `trigger_epoch` leave the counter at `M` (incremented once per
call whether or not it fired), fire `_trigger` exactly on the calls whose
1-based index is a multiple of `P`, hence `M / P` times in total; with
`P = 1` every call fires. -/
theorem periodic_trigger_fires_every_P (P M : Nat) (hP : 0 < P) :
    (runEpochs (periodicInit P) M).1.epoch_num = M
    ∧ (runEpochs (periodicInit P) M).2 =
        (List.range M).map (fun k => (k + 1) % P == 0)
    ∧ (∀ k, k < M →
        ((runEpochs (periodicInit P) M).2.getD k false = true ↔ P ∣ (k + 1)))
    ∧ (runEpochs (periodicInit P) M).2.count true = M / P
    ∧ (P = 1 → (runEpochs (periodicInit P) M).2 = List.replicate M true) := by
  have hcf : runEpochs (periodicInit P) M =
      (⟨P, M⟩, (List.range M).map (fun k => (k + 1) % P == 0)) := by
    have := runEpochs_closed_form P M 0
    simpa [periodicInit] using this
  refine ⟨by rw [hcf], by rw [hcf], ?_, ?_, ?_⟩
  · intro k hk
    rw [hcf]
    have hget : ((List.range M).map
        (fun k => (k + 1) % P == 0)).getD k false = ((k + 1) % P == 0) := by
      rw [List.getD_eq_getElem?_getD, List.getElem?_map, List.getElem?_range hk]
      rfl
    rw [hget, beq_iff_eq]
    exact Nat.dvd_iff_mod_eq_zero.symm
  · rw [hcf]
    exact count_true_fires P M
  · intro h1
    subst h1
    rw [hcf]
    refine List.eq_replicate_iff.mpr ⟨by simp, ?_⟩
    intro b hb
    rcases List.mem_map.mp hb with ⟨k, _, hk⟩
    simpa [Nat.mod_one] using hk.symm

/-- Witness for C2: period 2, five calls — fires on calls 2 and 4. -/
theorem periodic_trigger_fires_every_P_witness :
    0 < 2
    ∧ ((runEpochs (periodicInit 2) 5).1.epoch_num = 5
    ∧ (runEpochs (periodicInit 2) 5).2 =
        (List.range 5).map (fun k => (k + 1) % 2 == 0)
    ∧ (∀ k, k < 5 →
        ((runEpochs (periodicInit 2) 5).2.getD k false = true ↔ 2 ∣ (k + 1)))
    ∧ (runEpochs (periodicInit 2) 5).2.count true = 5 / 2
    ∧ (2 = 1 → (runEpochs (periodicInit 2) 5).2 = List.replicate 5 true)) :=
  ⟨by decide, periodic_trigger_fires_every_P 2 5 (by decide)⟩

/-! ### Helper lemma about the timing diagnostic -/

lemma heavyHookMsgs_eq_filter_map (tot : ℚ) (l : List (Hook × ℚ)) :
    ∀ acc : List (String × ℚ),
      l.foldl (fun msgs p =>
          if 3/10 < p.2 / tot ∧ 1 < p.2 then msgs ++ [(p.1.type.className, p.2)]
          else msgs) acc
        = acc ++ (l.filter
            (fun p => decide (3/10 < p.2 / tot ∧ 1 < p.2))).map
            (fun p => (p.1.type.className, p.2)) := by
  induction l with
  | nil => intro acc; simp
  | cons p t ih =>
    intro acc
    by_cases h : 3/10 < p.2 / tot ∧ 1 < p.2
    · simp [List.foldl_cons, if_pos h, ih, List.filter_cons, h]
    · simp [List.foldl_cons, if_neg h, ih, List.filter_cons, h]

/-! ### Claims about the timing diagnostic -/

/-- C3: when the total elapsed time `tot` is at least 3 seconds, one combined
log line is emitted, and a hook is named in it (with its elapsed time) if and
only if its own time exceeds both 30% of the total and the absolute 1-second
floor. -/
theorem slow_hook_diagnostic_iff (cbs : List Hook) (times : List ℚ) (tot : ℚ)
    (h : 3 ≤ tot) :
    epochTimeDiagnostic cbs times tot =
      some (tot, ((cbs.zip times).filter
          (fun p => decide (3/10 < p.2 / tot ∧ 1 < p.2))).map
        (fun p => (p.1.type.className, p.2)))
    ∧ ∀ p ∈ cbs.zip times,
        ((p.1.type.className, p.2) ∈ heavyHookMsgs cbs times tot
          ↔ 3/10 < p.2 / tot ∧ 1 < p.2) := by
  have hmsgs : heavyHookMsgs cbs times tot =
      ((cbs.zip times).filter
          (fun p => decide (3/10 < p.2 / tot ∧ 1 < p.2))).map
        (fun p => (p.1.type.className, p.2)) := by
    have := heavyHookMsgs_eq_filter_map tot (cbs.zip times) []
    simpa [heavyHookMsgs] using this
  refine ⟨?_, ?_⟩
  · rw [epochTimeDiagnostic, if_neg (not_lt.mpr h), hmsgs]
  · intro p hp
    rw [hmsgs]
    constructor
    · intro hmem
      rcases List.mem_map.mp hmem with ⟨q, hq, hqp⟩
      rcases List.mem_filter.mp hq with ⟨_, hqcond⟩
      have hq2 : q.2 = p.2 := by injection hqp
      have := of_decide_eq_true hqcond
      rwa [hq2] at this
    · intro hcond
      exact List.mem_map.mpr ⟨p,
        List.mem_filter.mpr ⟨hp, decide_eq_true hcond⟩, rfl⟩

/-- Witness for C3: total 3s; a hook at 1.2s (40% of total, above the 1s
floor) is named while a hook at 0.5s is not. -/
theorem slow_hook_diagnostic_iff_witness :
    (3 : ℚ) ≤ 3
    ∧ (epochTimeDiagnostic
        [Hook.mk 0 .summaryWriter, Hook.mk 1 .periodicSaver]
        [12/10, 5/10] 3 =
      some (3, (([Hook.mk 0 .summaryWriter, Hook.mk 1 .periodicSaver].zip
            [(12/10 : ℚ), 5/10]).filter
          (fun p => decide (3/10 < p.2 / 3 ∧ 1 < p.2))).map
        (fun p => (p.1.type.className, p.2)))
    ∧ ∀ p ∈ [Hook.mk 0 .summaryWriter, Hook.mk 1 .periodicSaver].zip
        [(12/10 : ℚ), 5/10],
        ((p.1.type.className, p.2) ∈ heavyHookMsgs
            [Hook.mk 0 .summaryWriter, Hook.mk 1 .periodicSaver]
            [12/10, 5/10] 3
          ↔ 3/10 < p.2 / 3 ∧ 1 < p.2)) :=
  ⟨by norm_num,
   slow_hook_diagnostic_iff
     [Hook.mk 0 .summaryWriter, Hook.mk 1 .periodicSaver]
     [12/10, 5/10] 3 (by norm_num)⟩

/-- C4: when the total elapsed time is under 3 seconds, no diagnostic line is
emitted, whatever the individual hook times are. -/
theorem fast_epoch_no_diagnostic (cbs : List Hook) (times : List ℚ) (tot : ℚ)
    (h : tot < 3) : epochTimeDiagnostic cbs times tot = none := by
  simp [epochTimeDiagnostic, h]

/-- Witness for C4: total 2.9s with one hook taking all of it — still silent. -/
theorem fast_epoch_no_diagnostic_witness :
    (29/10 : ℚ) < 3
    ∧ epochTimeDiagnostic [Hook.mk 0 .summaryWriter, Hook.mk 1 .periodicSaver]
        [29/10, 0] (29/10) = none :=
  ⟨by norm_num,
   fast_epoch_no_diagnostic
     [Hook.mk 0 .summaryWriter, Hook.mk 1 .periodicSaver]
     [29/10, 0] (29/10) (by norm_num)⟩

end Tensorpack
